import Mathlib

/-!
Verification of the resource-management core (models, reservation protocol,
allocator, policies, contention detection, pooling, metrics) against its
natural-language specification.

Python floats are modelled as exact rationals (`Rat`); Python dicts are
modelled as association lists whose keys are unique (dict semantics), and
Python object references are modelled by storing objects in an id-keyed
store and passing ids, so that aliasing through shared references is
preserved.  Machine-level floating point rounding is out of scope: all
arithmetic in the source is simple sums, differences and comparisons.
-/

/-- Mirrors `ResourceType` (src/src/models/resource.py). -/
inductive ResourceType where
  | COMPUTE | MEMORY | STORAGE | NETWORK | GPU | SPECIALIZED | CUSTOM
  deriving DecidableEq, Repr

/-- Mirrors `ResourceState` (src/src/models/resource.py). -/
inductive ResourceState where
  | AVAILABLE | RESERVED | IN_USE | SCALING | MAINTENANCE | FAILED
  deriving DecidableEq, Repr

/-- Mirrors `ResourceCapacity` (src/src/models/resource.py); floats as `Rat`. -/
structure ResourceCapacity where
  current : Rat
  maximum : Rat
  unit : String := ""
  deriving DecidableEq, Repr

/-- `ResourceCapacity.available`: `maximum - current`. -/
def ResourceCapacity.available (c : ResourceCapacity) : Rat :=
  c.maximum - c.current

/-- `ResourceCapacity.utilization_percentage`. -/
def ResourceCapacity.utilization_percentage (c : ResourceCapacity) : Rat :=
  if c.maximum = 0 then 0 else c.current / c.maximum * 100

/-- A capability value: Python `Union[str, float, bool]`.  In Python,
`bool` is a subclass of `int`, so `isinstance(value, (int, float))` is
true for booleans and they compare as 1 / 0 in the numeric branch of
`ResourceConstraint.validate`. -/
inductive CapValue where
  | str (s : String)
  | num (x : Rat)
  | bool (b : Bool)
  deriving DecidableEq, Repr

/-- Mirrors `ResourceConstraint` (src/src/models/resource.py). -/
structure ResourceConstraint where
  name : String
  min_value : Option Rat := none
  max_value : Option Rat := none
  required_values : List String := []
  excluded_values : List String := []
  deriving DecidableEq, Repr

/-- Numeric branch of `ResourceConstraint.validate`: fails when a bound is
set and violated, otherwise passes. -/
def ResourceConstraint.validateNum (c : ResourceConstraint) (x : Rat) : Bool :=
  (match c.min_value with
   | some m => !decide (x < m)
   | none => true) &&
  (match c.max_value with
   | some m => !decide (m < x)
   | none => true)

/-- Mirrors `ResourceConstraint.validate` (src/src/models/resource.py,
lines 63-75).  Numeric (and boolean, see `CapValue`) values go through the
min/max branch; strings go through the required/excluded branch. -/
def ResourceConstraint.validate (c : ResourceConstraint) : CapValue → Bool
  | .num x => c.validateNum x
  | .bool b => c.validateNum (if b then 1 else 0)
  | .str s =>
      (c.required_values.isEmpty || c.required_values.contains s) &&
      (c.excluded_values.isEmpty || !(c.excluded_values.contains s))

/-- Mirrors `ResourceSpecification` (src/src/models/resource.py).
`capabilities` is a dict, modelled as an association list with unique
keys. -/
structure ResourceSpecification where
  resource_type : ResourceType
  capabilities : List (String × CapValue) := []
  constraints : List ResourceConstraint := []
  metadata : List (String × String) := []
  deriving DecidableEq, Repr

/-- Mirrors `Resource` (src/src/models/resource.py). -/
structure Resource where
  id : String
  name : String := ""
  resource_type : ResourceType := ResourceType.CUSTOM
  capacity : ResourceCapacity := ⟨0, 0, ""⟩
  state : ResourceState := ResourceState.AVAILABLE
  specification : ResourceSpecification := ⟨ResourceType.CUSTOM, [], [], []⟩
  owner_id : Option String := none
  tags : List String := []
  deriving DecidableEq, Repr

/-- Mirrors `Resource.is_available`. -/
def Resource.is_available (r : Resource) : Bool :=
  decide (r.state = ResourceState.AVAILABLE) && decide (0 < r.capacity.available)

/-- Mirrors `Resource.reserve` (src/src/models/resource.py, lines 125-143).
Returns the success flag together with the updated resource (explicit
state passing for the Python in-place mutation). -/
def Resource.reserve (r : Resource) (amount : Rat) (owner_id : String) :
    Bool × Resource :=
  if !r.is_available || decide (r.capacity.available < amount) then
    (false, r)
  else
    let current := r.capacity.current + amount
    let st :=
      if r.capacity.maximum ≤ current then ResourceState.RESERVED else r.state
    (true, { r with
              capacity := { r.capacity with current := current },
              state := st,
              owner_id := some owner_id })

/-- Mirrors `Resource.release` (src/src/models/resource.py, lines 145-165). -/
def Resource.release (r : Resource) (amount : Rat) : Bool × Resource :=
  if decide (r.capacity.current < amount) then
    (false, r)
  else
    let current := r.capacity.current - amount
    let st :=
      if r.state = ResourceState.RESERVED ∨ r.state = ResourceState.IN_USE then
        ResourceState.AVAILABLE
      else r.state
    let owner := if current = 0 then none else r.owner_id
    (true, { r with
              capacity := { r.capacity with current := current },
              state := st,
              owner_id := owner })

/-- Mirrors `ResourceRequirement` (src/src/models/resource.py). -/
structure ResourceRequirement where
  resource_type : ResourceType
  amount : Rat
  unit : String := ""
  priority : Int := 0
  constraints : List ResourceConstraint := []
  preferred_resources : List String := []
  is_elastic : Bool := false
  deriving DecidableEq, Repr

/-- Mirrors `ResourceRequirement.can_be_satisfied_by`
(src/src/models/resource.py, lines 184-198).  The constraint loop checks
each constraint only against capabilities whose key equals the constraint
name; it returns false exactly when some matching capability fails
validation (`List.all` is extensionally the early-return double loop). -/
def ResourceRequirement.can_be_satisfied_by (req : ResourceRequirement)
    (r : Resource) : Bool :=
  if !decide (r.resource_type = req.resource_type) then false
  else if decide (r.capacity.available < req.amount) then false
  else
    req.constraints.all fun c =>
      r.specification.capabilities.all fun p =>
        !(p.1 == c.name) || c.validate p.2

/-- Mirrors `ContentionSeverity` (src/src/contention/detector.py). -/
inductive ContentionSeverity where
  | NONE | LOW | MEDIUM | HIGH | CRITICAL
  deriving DecidableEq, Repr

/-- Mirrors `ContentionDetector._calculate_contention_severity`
(src/src/contention/detector.py, lines 165-197).  When `supply = 0` the
source sets the ratio to `float(inf)`, which fails every `<=` threshold
and lands in the CRITICAL branch; that path is embedded directly. -/
def calculate_contention_severity (demand supply : Nat) : ContentionSeverity :=
  if demand ≤ supply then ContentionSeverity.NONE
  else if supply = 0 then ContentionSeverity.CRITICAL
  else
    let ratio_val : Rat := (demand : Rat) / (supply : Rat)
    if ratio_val ≤ 1.2 then ContentionSeverity.LOW
    else if ratio_val ≤ 1.5 then ContentionSeverity.MEDIUM
    else if ratio_val ≤ 2.0 then ContentionSeverity.HIGH
    else ContentionSeverity.CRITICAL

/-- Concrete resource used in several counterexamples. -/
def sampleResource : Resource :=
  { id := "res-1", name := "node-1", resource_type := ResourceType.COMPUTE,
    capacity := ⟨0, 10, "cores"⟩ }

/-- The capacity invariant of the spec data model:
`0 ≤ capacity.current ≤ capacity.maximum`. -/
def capInv (r : Resource) : Prop :=
  0 ≤ r.capacity.current ∧ r.capacity.current ≤ r.capacity.maximum

/-- A single reserve or release call on a resource. -/
inductive ResourceOp where
  | reserveOp (amount : Rat) (owner : String)
  | releaseOp (amount : Rat)

/-- The amount argument of a reserve/release call. -/
def ResourceOp.amount : ResourceOp → Rat
  | .reserveOp a _ => a
  | .releaseOp a => a

/-- Applies one reserve/release call, keeping the updated resource. -/
def applyOp (r : Resource) : ResourceOp → Resource
  | .reserveOp a o => (r.reserve a o).2
  | .releaseOp a => (r.release a).2

/-- Applies a sequence of reserve/release calls in order. -/
def applyOps (r : Resource) (ops : List ResourceOp) : Resource :=
  ops.foldl applyOp r

theorem reserve_preserves_inv (r : Resource) (a : Rat) (o : String)
    (ha : 0 ≤ a) (hinv : capInv r) : capInv (r.reserve a o).2 := by
  obtain ⟨h0, h1⟩ := hinv
  simp only [Resource.reserve, ResourceCapacity.available] at *
  split
  · exact ⟨h0, h1⟩
  · next hcond =>
      simp only [Bool.or_eq_true, Bool.not_eq_true', decide_eq_true_eq,
        not_or, not_lt, Bool.not_eq_false] at hcond
      constructor
      · simpa using add_nonneg h0 ha
      · simpa using by linarith [hcond.2]

theorem release_preserves_inv (r : Resource) (a : Rat)
    (ha : 0 ≤ a) (hinv : capInv r) : capInv (r.release a).2 := by
  obtain ⟨h0, h1⟩ := hinv
  simp only [Resource.release] at *
  split
  · exact ⟨h0, h1⟩
  · next hcond =>
      simp only [decide_eq_true_eq, not_lt] at hcond
      exact ⟨by simpa using by linarith, by simpa using by linarith⟩

theorem applyOp_preserves_inv (r : Resource) (op : ResourceOp)
    (ha : 0 ≤ op.amount) (hinv : capInv r) : capInv (applyOp r op) := by
  cases op with
  | reserveOp a o => exact reserve_preserves_inv r a o ha hinv
  | releaseOp a => exact release_preserves_inv r a ha hinv

/-- C1: amended form.  For non-negative amounts the capacity invariant
`0 ≤ current ≤ maximum` is preserved by every sequence of reserve/release
calls; `reserve` only returns true when the result still satisfies the
invariant; and `release` returns true only when `amount ≤ current` (the
release guard holds for all amounts).  The unrestricted claim, covering
negative amounts, is refuted by `c1_counterexample`. -/
theorem c1_invariant_nonneg_ops :
    (∀ (r : Resource) (ops : List ResourceOp),
        (∀ op ∈ ops, 0 ≤ op.amount) → capInv r → capInv (applyOps r ops)) ∧
    (∀ (r : Resource) (a : Rat) (o : String), 0 ≤ a → capInv r →
        (r.reserve a o).1 = true → capInv (r.reserve a o).2) ∧
    (∀ (r : Resource) (a : Rat), (r.release a).1 = true →
        a ≤ r.capacity.current) := by
  refine ⟨?_, ?_, ?_⟩
  · intro r ops
    induction ops generalizing r with
    | nil => intro _ h; exact h
    | cons op rest ih =>
        intro hops hinv
        simp only [applyOps, List.foldl_cons] at *
        exact ih (applyOp r op)
          (fun x hx => hops x (List.mem_cons_of_mem _ hx))
          (applyOp_preserves_inv r op (hops op (List.mem_cons_self _ _)) hinv)
  · intro r a o ha hinv _
    exact reserve_preserves_inv r a o ha hinv
  · intro r a h
    simp only [Resource.release] at h
    by_cases hc : r.capacity.current < a
    · simp [hc] at h
    · exact not_lt.mp hc

/-- C1: witness for `c1_invariant_nonneg_ops` at a concrete input. -/
theorem c1_witness :
    (∀ op ∈ [ResourceOp.reserveOp 4 "o", ResourceOp.releaseOp 4],
        0 ≤ op.amount) ∧
    capInv sampleResource ∧
    capInv (applyOps sampleResource
      [ResourceOp.reserveOp 4 "o", ResourceOp.releaseOp 4]) := by
  refine ⟨?_, ?_, ?_⟩
  · intro op hop
    simp only [List.mem_cons, List.mem_singleton] at hop
    rcases hop with h | h | h <;> first
      | (subst h; norm_num [ResourceOp.amount])
      | cases h
  · constructor <;> norm_num [capInv, sampleResource]
  · exact c1_invariant_nonneg_ops.1 sampleResource _
      (by intro op hop
          simp only [List.mem_cons, List.mem_singleton] at hop
          rcases hop with h | h | h <;> first
            | (subst h; norm_num [ResourceOp.amount])
            | cases h)
      (by constructor <;> norm_num [capInv, sampleResource])

/-- C1: counterexample to the claim as stated.  The claim quantifies over
all float amounts including negative ones, but `reserve(-5, "o")` on an
available resource with `current = 0`, `maximum = 10` returns true and
leaves `current = -5 < 0`, violating the invariant. -/
theorem c1_counterexample :
    (sampleResource.reserve (-5) "o").1 = true ∧
    (sampleResource.reserve (-5) "o").2.capacity.current < 0 := by
  constructor <;>
    norm_num [Resource.reserve, Resource.is_available,
      ResourceCapacity.available, sampleResource]

/-- C6: the contention severity mapping.  `supply = 0` yields CRITICAL;
otherwise LOW / MEDIUM / HIGH / CRITICAL by the ratio thresholds
1.2, 1.5, 2.0; and the three concrete boundary examples. -/
theorem c6_severity_thresholds :
    (∀ d s : Nat, s < d →
      (s = 0 → calculate_contention_severity d s = ContentionSeverity.CRITICAL) ∧
      (0 < s → (d : Rat) / (s : Rat) ≤ 1.2 →
        calculate_contention_severity d s = ContentionSeverity.LOW) ∧
      (0 < s → 1.2 < (d : Rat) / (s : Rat) → (d : Rat) / (s : Rat) ≤ 1.5 →
        calculate_contention_severity d s = ContentionSeverity.MEDIUM) ∧
      (0 < s → 1.5 < (d : Rat) / (s : Rat) → (d : Rat) / (s : Rat) ≤ 2.0 →
        calculate_contention_severity d s = ContentionSeverity.HIGH) ∧
      (0 < s → 2.0 < (d : Rat) / (s : Rat) →
        calculate_contention_severity d s = ContentionSeverity.CRITICAL)) ∧
    calculate_contention_severity 12 10 = ContentionSeverity.LOW ∧
    calculate_contention_severity 15 10 = ContentionSeverity.MEDIUM ∧
    calculate_contention_severity 21 10 = ContentionSeverity.CRITICAL := by
  refine ⟨?_, ?_, ?_, ?_⟩
  · intro d s hds
    have hnle : ¬ d ≤ s := by omega
    refine ⟨?_, ?_, ?_, ?_, ?_⟩
    · intro hs0
      simp [calculate_contention_severity, hnle, hs0, show ¬ d = 0 by omega]
    · intro hs h12
      have hs0 : ¬ s = 0 := by omega
      simp [calculate_contention_severity, hnle, hs0, h12]
    · intro hs h12 h15
      have hs0 : ¬ s = 0 := by omega
      simp [calculate_contention_severity, hnle, hs0, not_le.mpr h12, h15]
    · intro hs h15 h20
      have hs0 : ¬ s = 0 := by omega
      have h12 : ¬ (d : Rat) / (s : Rat) ≤ 1.2 := by
        norm_num at h15 ⊢; linarith
      simp [calculate_contention_severity, hnle, hs0, h12,
        not_le.mpr h15, h20]
    · intro hs h20
      have hs0 : ¬ s = 0 := by omega
      have h12 : ¬ (d : Rat) / (s : Rat) ≤ 1.2 := by
        norm_num at h20 ⊢; linarith
      have h15 : ¬ (d : Rat) / (s : Rat) ≤ 1.5 := by
        norm_num at h20 ⊢; linarith
      simp [calculate_contention_severity, hnle, hs0, h12, h15,
        not_le.mpr h20]
  · norm_num [calculate_contention_severity]
  · norm_num [calculate_contention_severity]
  · norm_num [calculate_contention_severity]

/-- C6: witness for `c6_severity_thresholds` at demand 12, supply 10. -/
theorem c6_witness :
    10 < 12 ∧ calculate_contention_severity 12 10 = ContentionSeverity.LOW :=
  ⟨by norm_num,
   ((c6_severity_thresholds.1 12 10 (by norm_num)).2.1 (by norm_num)
     (by norm_num))⟩

/-- Requirement used in the C3 counterexample: one constraint whose name
does not occur among the capabilities of `sampleResource`. -/
def c3Req : ResourceRequirement :=
  { resource_type := ResourceType.COMPUTE, amount := 4, unit := "cores",
    constraints := [{ name := "gpu_mem", min_value := some 8 }] }

/-- C3: counterexample.  `sampleResource` has no capability named
`gpu_mem`, yet `can_be_satisfied_by` returns true: the source skips
constraints whose name is absent from the capabilities, while the claim
says such a constraint makes the requirement not satisfied. -/
theorem c3_counterexample :
    ((c3Req.constraints.map ResourceConstraint.name).all fun n =>
        (sampleResource.specification.capabilities.map Prod.fst).contains n)
      = false ∧
    c3Req.can_be_satisfied_by sampleResource = true := by
  constructor
  · rfl
  · norm_num [ResourceRequirement.can_be_satisfied_by, c3Req, sampleResource,
      ResourceCapacity.available]

/-- C3: amended form.  `can_be_satisfied_by` returns true iff the type
matches, available capacity is at least the amount, and every constraint
validates against every capability of the same name; a constraint whose
name is absent from the capabilities is skipped, not treated as a
failure. -/
theorem c3_can_be_satisfied_characterisation :
    ∀ (req : ResourceRequirement) (r : Resource),
      req.can_be_satisfied_by r = true ↔
        (r.resource_type = req.resource_type ∧
         req.amount ≤ r.capacity.available ∧
         ∀ c ∈ req.constraints, ∀ p ∈ r.specification.capabilities,
           p.1 = c.name → c.validate p.2 = true) := by
  intro req r
  simp only [ResourceRequirement.can_be_satisfied_by]
  by_cases hty : r.resource_type = req.resource_type
  · by_cases hcap : r.capacity.available < req.amount
    · simp [hty, hcap, not_le.mpr hcap]
    · simp only [hty, decide_True, Bool.not_true, Bool.false_eq_true,
        if_false, hcap, decide_False, if_true, List.all_eq_true,
        Bool.or_eq_true, Bool.not_eq_true', beq_eq_false_iff_ne, ne_eq]
      constructor
      · intro h
        refine ⟨by trivial, not_lt.mp hcap, ?_⟩
        intro c hc p hp hname
        rcases h c hc p hp with hne | hv
        · exact absurd hname hne
        · exact hv
      · intro ⟨_, _, h⟩ c hc p hp
        by_cases hname : p.1 = c.name
        · exact Or.inr (h c hc p hp hname)
        · exact Or.inl hname
  · simp [hty]

/-- C3: witness for the characterisation, at the counterexample input. -/
theorem c3_witness :
    c3Req.can_be_satisfied_by sampleResource = true := by
  apply (c3_can_be_satisfied_characterisation c3Req sampleResource).mpr
  refine ⟨rfl, ?_, ?_⟩
  · norm_num [sampleResource, c3Req, ResourceCapacity.available]
  · intro c hc p hp hname
    simp [sampleResource] at hp

/-- C8: reserve/release round trip.  For every resource satisfying the
capacity lower bound of the data model (`0 ≤ current`) and every amount
for which `reserve` succeeds, the subsequent `release` of the same amount
succeeds, restores `current` exactly, and leaves the state AVAILABLE. -/
theorem c8_reserve_release_roundtrip :
    ∀ (r : Resource) (a : Rat) (o : String),
      0 ≤ r.capacity.current →
      (r.reserve a o).1 = true →
      ((r.reserve a o).2.release a).1 = true ∧
      ((r.reserve a o).2.release a).2.capacity.current = r.capacity.current ∧
      ((r.reserve a o).2.release a).2.state = ResourceState.AVAILABLE := by
  intro r a o h0 hres
  simp only [Resource.reserve] at hres ⊢
  by_cases hc : (!r.is_available || decide (r.capacity.available < a)) = true
  · rw [if_pos hc] at hres; cases hres
  · rw [if_neg hc] at hres ⊢
    simp only [Bool.or_eq_true, Bool.not_eq_true', decide_eq_true_eq,
      not_or, Bool.not_eq_false] at hc
    obtain ⟨hav, hle⟩ := hc
    simp only [Resource.is_available, Bool.and_eq_true, decide_eq_true_eq] at hav
    obtain ⟨hstate, _⟩ := hav
    have hguard : ¬ (r.capacity.current + a < a) := by linarith
    simp only [Resource.release, hguard, decide_eq_true_eq]
    rw [if_neg (by simpa using hguard)]
    refine ⟨rfl, by ring_nf, ?_⟩
    by_cases hmax : r.capacity.maximum ≤ r.capacity.current + a
    · simp [hmax]
    · simp [hmax, hstate]

/-- C8: witness at the concrete resource, amount 4. -/
theorem c8_witness :
    (0 : Rat) ≤ sampleResource.capacity.current ∧
    (sampleResource.reserve 4 "o").1 = true ∧
    ((sampleResource.reserve 4 "o").2.release 4).1 = true ∧
    ((sampleResource.reserve 4 "o").2.release 4).2.capacity.current
      = sampleResource.capacity.current ∧
    ((sampleResource.reserve 4 "o").2.release 4).2.state
      = ResourceState.AVAILABLE := by
  have h0 : (0 : Rat) ≤ sampleResource.capacity.current := by
    norm_num [sampleResource]
  have hres : (sampleResource.reserve 4 "o").1 = true := by
    norm_num [Resource.reserve, Resource.is_available,
      ResourceCapacity.available, sampleResource]
  have h := c8_reserve_release_roundtrip sampleResource 4 "o" h0 hres
  exact ⟨h0, hres, h.1, h.2.1, h.2.2⟩

/-- Association-list lookup, modelling Python dict access: the value of
the first (and in dict usage, only) binding of the key. -/
def alGet {α : Type} (l : List (String × α)) (k : String) : Option α :=
  (l.find? fun p => p.1 == k).map (·.2)

/-- Association-list in-place update, modelling mutation of the object a
dict key refers to: every binding of the key is rebound, other bindings
are untouched, no binding is created. -/
def alSet {α : Type} (l : List (String × α)) (k : String) (v : α) :
    List (String × α) :=
  l.map fun p => if p.1 == k then (p.1, v) else p

/-- Python dict assignment `d[k] = v`: overwrite if present (keeping the
insertion position), append otherwise. -/
def alIns {α : Type} (l : List (String × α)) (k : String) (v : α) :
    List (String × α) :=
  if l.any fun p => p.1 == k then alSet l k v else l ++ [(k, v)]

theorem alGet_cons {α : Type} (x : String × α) (rest : List (String × α))
    (k : String) :
    alGet (x :: rest) k = if x.1 = k then some x.2 else alGet rest k := by
  by_cases h : x.1 = k
  · rw [if_pos h]
    unfold alGet
    rw [List.find?_cons_of_pos _ (by simpa using h)]
    rfl
  · rw [if_neg h]
    unfold alGet
    rw [List.find?_cons_of_neg _ (by simpa using h)]

theorem alSet_cons {α : Type} (x : String × α) (rest : List (String × α))
    (k : String) (v : α) :
    alSet (x :: rest) k v
      = (if x.1 == k then (x.1, v) else x) :: alSet rest k v := rfl

theorem alGet_alSet_ne {α : Type} (l : List (String × α)) (k k2 : String)
    (v : α) (h : k ≠ k2) : alGet (alSet l k v) k2 = alGet l k2 := by
  induction l with
  | nil => rfl
  | cons x rest ih =>
      rw [alSet_cons]
      by_cases hx : x.1 = k
      · rw [show (if x.1 == k then (x.1, v) else x) = (x.1, v) by simp [hx],
          alGet_cons, alGet_cons]
        have hne : ¬ x.1 = k2 := by rw [hx]; exact h
        rw [if_neg hne, if_neg hne]
        exact ih
      · rw [show (if x.1 == k then (x.1, v) else x) = x by simp [hx],
          alGet_cons, alGet_cons]
        by_cases hk2 : x.1 = k2
        · rw [if_pos hk2, if_pos hk2]
        · rw [if_neg hk2, if_neg hk2]
          exact ih

theorem alGet_alSet_self {α : Type} (l : List (String × α)) (k : String)
    (v : α) (h : (alGet l k).isSome) : alGet (alSet l k v) k = some v := by
  induction l with
  | nil => simp [alGet] at h
  | cons x rest ih =>
      rw [alSet_cons]
      by_cases hx : x.1 = k
      · rw [show (if x.1 == k then (x.1, v) else x) = (x.1, v) by simp [hx],
          alGet_cons]
        simp [hx]
      · rw [show (if x.1 == k then (x.1, v) else x) = x by simp [hx],
          alGet_cons, if_neg hx]
        rw [alGet_cons, if_neg hx] at h
        exact ih h

/-- Mirrors `ReservationStatus` (src/src/protocols/reservation.py). -/
inductive ReservationStatus where
  | PENDING | CONFIRMED | PARTIAL | FAILED | RELEASED | EXPIRED
  deriving DecidableEq, Repr

/-- Mirrors `ReservationStrategy` (src/src/protocols/reservation.py). -/
inductive ReservationStrategy where
  | GREEDY | BALANCED | OPTIMIZED | PRIORITY
  deriving DecidableEq, Repr

/-- The store of live `Resource` objects, keyed by resource id.  Python
object references are modelled as ids into this store, so mutations made
through one reference are seen through every other reference. -/
abbrev Store := List (String × Resource)

/-- Mirrors `Reservation` (src/src/protocols/reservation.py).
`allocated_resources` maps a resource id to the allocated amount; the
`Resource` component of the Python tuple lives in the shared `Store`.
Python object messages are abbreviated to fixed strings (no claim
mentions them). -/
structure Reservation where
  id : String
  requester_id : String
  requirements : List ResourceRequirement
  strategy : ReservationStrategy := ReservationStrategy.BALANCED
  status : ReservationStatus := ReservationStatus.PENDING
  created_at : Rat := 0
  confirmed_at : Option Rat := none
  expires_at : Rat
  allocated_resources : List (String × Rat) := []
  message : String := ""
  deriving DecidableEq, Repr

/-- Mirrors `Reservation.is_expired`: `time.time() > expires_at`, with the
current time passed explicitly. -/
def Reservation.is_expired (rsv : Reservation) (now : Rat) : Bool :=
  decide (rsv.expires_at < now)

/-- The confirm loop of `Reservation.confirm`: flips every allocated
resource to IN_USE.  An id absent from the store cannot occur in Python
(the entry holds a live reference) and is skipped. -/
def confirmLoop : List (String × Rat) → Store → Store
  | [], st => st
  | p :: rest, st =>
      match alGet st p.1 with
      | some r => confirmLoop rest (alSet st p.1 { r with state := ResourceState.IN_USE })
      | none => confirmLoop rest st

/-- Mirrors `Reservation.confirm` (src/src/protocols/reservation.py,
lines 64-87). -/
def Reservation.confirm (rsv : Reservation) (store : Store) (now : Rat) :
    Bool × Reservation × Store :=
  if rsv.status ≠ ReservationStatus.PENDING then
    (false, { rsv with message := "Cannot confirm reservation" }, store)
  else if rsv.is_expired now then
    (false, { rsv with
              status := ReservationStatus.EXPIRED,
              message := "Reservation expired before confirmation" }, store)
  else
    (true, { rsv with
             status := ReservationStatus.CONFIRMED,
             confirmed_at := some now,
             message := "Reservation confirmed successfully" },
     confirmLoop rsv.allocated_resources store)

/-- The release loop of `Reservation.release`: attempts every entry even
after a failure, accumulating overall success (the source is not
atomic).  An id absent from the store cannot occur in Python and is
skipped. -/
def releaseLoop : List (String × Rat) → Store → Bool → String →
    Bool × Store × String
  | [], st, success, msg => (success, st, msg)
  | p :: rest, st, success, msg =>
      match alGet st p.1 with
      | some r =>
          let res := r.release p.2
          let st2 := alSet st p.1 res.2
          if res.1 then releaseLoop rest st2 success msg
          else releaseLoop rest st2 false ("Failed to release resource " ++ p.1)
      | none => releaseLoop rest st success msg

/-- Mirrors `Reservation.release` (src/src/protocols/reservation.py,
lines 89-110). -/
def Reservation.release (rsv : Reservation) (store : Store) :
    Bool × Reservation × Store :=
  if rsv.status = ReservationStatus.CONFIRMED ∨
     rsv.status = ReservationStatus.PARTIAL then
    let out := releaseLoop rsv.allocated_resources store true rsv.message
    if out.1 then
      (true, { rsv with
               status := ReservationStatus.RELEASED,
               message := "All resources released successfully" }, out.2.1)
    else
      (false, { rsv with message := out.2.2 }, out.2.1)
  else
    (false, { rsv with message := "Cannot release reservation" }, store)

/-- Mirrors `ReservationManager` (src/src/protocols/reservation.py).
`resource_registry` doubles as the live-object store (no claim involves
`unregister_resource`). -/
structure ReservationManager where
  active_reservations : List (String × Reservation) := []
  resource_registry : Store := []
  deriving DecidableEq, Repr

/-- Mirrors `ReservationManager.register_resource`. -/
def ReservationManager.register_resource (m : ReservationManager)
    (r : Resource) : ReservationManager :=
  { m with resource_registry := alIns m.resource_registry r.id r }

/-- Mirrors `ReservationManager.confirm_reservation`. -/
def ReservationManager.confirm_reservation (m : ReservationManager)
    (rid : String) (now : Rat) : Bool × ReservationManager :=
  match alGet m.active_reservations rid with
  | none => (false, m)
  | some rsv =>
      let out := rsv.confirm m.resource_registry now
      (out.1,
       { m with active_reservations := alSet m.active_reservations rid out.2.1,
                resource_registry := out.2.2 })

/-- Mirrors `ReservationManager.release_reservation`, including the
redundant re-assignment of RELEASED on success. -/
def ReservationManager.release_reservation (m : ReservationManager)
    (rid : String) : Bool × ReservationManager :=
  match alGet m.active_reservations rid with
  | none => (false, m)
  | some rsv =>
      let out := rsv.release m.resource_registry
      let rsv2 :=
        if out.1 then { out.2.1 with status := ReservationStatus.RELEASED }
        else out.2.1
      (out.1,
       { m with active_reservations := alSet m.active_reservations rid rsv2,
                resource_registry := out.2.2 })

/-- The sweep loop of `cleanup_expired_reservations`: a reservation is
expired (and its resources released, return values ignored) exactly when
its status is PENDING and it is past `expires_at`. -/
def cleanupLoop (now : Rat) : List (String × Reservation) → Store →
    Nat × List (String × Reservation) × Store
  | [], st => (0, [], st)
  | (k, rsv) :: rest, st =>
      if rsv.status = ReservationStatus.PENDING ∧ rsv.is_expired now = true then
        let st2 := rsv.allocated_resources.foldl (fun acc p =>
          match alGet acc p.1 with
          | some r => alSet acc p.1 (r.release p.2).2
          | none => acc) st
        let out := cleanupLoop now rest st2
        (out.1 + 1,
         (k, { rsv with status := ReservationStatus.EXPIRED }) :: out.2.1,
         out.2.2)
      else
        let out := cleanupLoop now rest st
        (out.1, (k, rsv) :: out.2.1, out.2.2)

/-- Mirrors `ReservationManager.cleanup_expired_reservations`
(src/src/protocols/reservation.py, lines 231-248). -/
def ReservationManager.cleanup_expired_reservations (m : ReservationManager)
    (now : Rat) : Nat × ReservationManager :=
  let out := cleanupLoop now m.active_reservations m.resource_registry
  (out.1,
   { m with active_reservations := out.2.1, resource_registry := out.2.2 })

/-- A status from which the spec says no transition ever happens. -/
def ReservationStatus.isTerminal (s : ReservationStatus) : Prop :=
  s = ReservationStatus.RELEASED ∨ s = ReservationStatus.EXPIRED

theorem release_fst (r : Resource) (a : Rat) :
    (r.release a).1 = !decide (r.capacity.current < a) := by
  simp only [Resource.release]
  split <;> simp_all

theorem release_fail_eq (r : Resource) (a : Rat)
    (h : r.capacity.current < a) : (r.release a).2 = r := by
  simp [Resource.release, h]

/-- Whether a single release of this entry would succeed against the
given store (the entry is vacuously fine when its id is absent, which
cannot occur in Python). -/
def relOk (st : Store) (p : String × Rat) : Bool :=
  match alGet st p.1 with
  | some r => !decide (r.capacity.current < p.2)
  | none => true

theorem releaseLoop_success (entries : List (String × Rat)) (st st0 : Store)
    (success : Bool) (msg : String)
    (hnd : (entries.map Prod.fst).Nodup)
    (hag : ∀ q ∈ entries, alGet st q.1 = alGet st0 q.1) :
    (releaseLoop entries st success msg).1
      = (success && entries.all (relOk st0)) := by
  induction entries generalizing st success msg with
  | nil => simp [releaseLoop]
  | cons p rest ih =>
      simp only [List.map_cons, List.nodup_cons] at hnd
      obtain ⟨hnotmem, hndr⟩ := hnd
      have hagp : alGet st p.1 = alGet st0 p.1 :=
        hag p (List.mem_cons_self _ _)
      cases hget : alGet st p.1 with
      | none =>
          simp only [releaseLoop, hget]
          rw [ih st success msg hndr
            (fun q hq => hag q (List.mem_cons_of_mem _ hq))]
          have hok : relOk st0 p = true := by
            simp [relOk, ← hagp, hget]
          simp [hok]
      | some r =>
          simp only [releaseLoop, hget]
          have hag2 : ∀ q ∈ rest,
              alGet (alSet st p.1 (r.release p.2).2) q.1 = alGet st0 q.1 := by
            intro q hq
            have hne : p.1 ≠ q.1 := by
              intro h
              exact hnotmem (h ▸ List.mem_map_of_mem Prod.fst hq)
            rw [alGet_alSet_ne _ _ _ _ hne]
            exact hag q (List.mem_cons_of_mem _ hq)
          have hrel : relOk st0 p = (r.release p.2).1 := by
            rw [release_fst]
            simp [relOk, ← hagp, hget]
          by_cases hok : (r.release p.2).1 = true
          · rw [if_pos hok, ih _ success msg hndr hag2]
            have hok2 : relOk st0 p = true := by rw [hrel]; exact hok
            simp [List.all_cons, hok2]
          · rw [if_neg hok,
              ih _ false ("Failed to release resource " ++ p.1) hndr hag2]
            have : relOk st0 p = false := by
              rw [hrel]; exact Bool.not_eq_true _ ▸ (by simpa using hok)
            simp [List.all_cons, this]

theorem releaseLoop_store_notmem (entries : List (String × Rat)) (st : Store)
    (success : Bool) (msg : String) (k : String)
    (hk : k ∉ entries.map Prod.fst) :
    alGet (releaseLoop entries st success msg).2.1 k = alGet st k := by
  induction entries generalizing st success msg with
  | nil => simp [releaseLoop]
  | cons p rest ih =>
      simp only [List.map_cons, List.mem_cons, not_or] at hk
      obtain ⟨hkp, hkr⟩ := hk
      cases hget : alGet st p.1 with
      | none => simpa [releaseLoop, hget] using ih st success msg hkr
      | some r =>
          simp only [releaseLoop, hget]
          have hset : alGet (alSet st p.1 (r.release p.2).2) k = alGet st k :=
            alGet_alSet_ne _ _ _ _ (fun h => hkp (h ▸ rfl))
          by_cases hok : (r.release p.2).1 = true
          · rw [if_pos hok, ih _ success msg hkr, hset]
          · rw [if_neg hok, ih _ false _ hkr, hset]

theorem releaseLoop_store_mem (entries : List (String × Rat)) (st : Store)
    (success : Bool) (msg : String)
    (hnd : (entries.map Prod.fst).Nodup) :
    ∀ p ∈ entries,
      alGet (releaseLoop entries st success msg).2.1 p.1
        = (alGet st p.1).map (fun r => (r.release p.2).2) := by
  induction entries generalizing st success msg with
  | nil => intro p hp; cases hp
  | cons q rest ih =>
      simp only [List.map_cons, List.nodup_cons] at hnd
      obtain ⟨hnotmem, hndr⟩ := hnd
      intro p hp
      rcases List.mem_cons.mp hp with hpq | hpr
      · subst hpq
        cases hget : alGet st p.1 with
        | none =>
            simp only [releaseLoop, hget, Option.map_none']
            rw [releaseLoop_store_notmem rest st success msg p.1 hnotmem, hget]
        | some r =>
            simp only [releaseLoop, hget, Option.map_some']
            have hsome : (alGet st p.1).isSome := by simp [hget]
            have hself : alGet (alSet st p.1 (r.release p.2).2) p.1
                = some (r.release p.2).2 := alGet_alSet_self _ _ _ hsome
            by_cases hok : (r.release p.2).1 = true
            · rw [if_pos hok,
                releaseLoop_store_notmem rest _ success msg p.1 hnotmem, hself]
            · rw [if_neg hok,
                releaseLoop_store_notmem rest _ false _ p.1 hnotmem, hself]
      · cases hget : alGet st q.1 with
        | none =>
            simp only [releaseLoop, hget]
            exact ih st success msg hndr p hpr
        | some r =>
            simp only [releaseLoop, hget]
            have hne : q.1 ≠ p.1 := by
              intro h
              exact hnotmem (h ▸ List.mem_map_of_mem Prod.fst hpr)
            have hset : alGet (alSet st q.1 (r.release q.2).2) p.1
                = alGet st p.1 := alGet_alSet_ne _ _ _ _ hne
            by_cases hok : (r.release q.2).1 = true
            · rw [if_pos hok, ih _ success msg hndr p hpr, hset]
            · rw [if_neg hok, ih _ false _ hndr p hpr, hset]

theorem confirm_terminal_status (rsv : Reservation) (store : Store) (now : Rat)
    (hterm : rsv.status.isTerminal) :
    ((rsv.confirm store now).2.1).status = rsv.status := by
  have hne : rsv.status ≠ ReservationStatus.PENDING := by
    rcases hterm with h | h <;> simp [h]
  simp [Reservation.confirm, hne]

theorem release_terminal (rsv : Reservation) (store : Store)
    (hterm : rsv.status.isTerminal) :
    (rsv.release store).1 = false ∧
    ((rsv.release store).2.1).status = rsv.status := by
  have hne : ¬(rsv.status = ReservationStatus.CONFIRMED ∨
      rsv.status = ReservationStatus.PARTIAL) := by
    rcases hterm with h | h <;> simp [h]
  simp [Reservation.release, hne]

theorem confirm_twice_false (rsv : Reservation) (store : Store)
    (now1 now2 : Rat) :
    (((rsv.confirm store now1).2.1).confirm
        (rsv.confirm store now1).2.2 now2).1 = false := by
  by_cases h1 : rsv.status = ReservationStatus.PENDING
  · by_cases h2 : rsv.is_expired now1 = true
    · simp [Reservation.confirm, h1, h2]
    · simp [Reservation.confirm, h1, h2]
  · simp [Reservation.confirm, h1]

theorem release_twice_false (rsv : Reservation) (store : Store)
    (hnd : (rsv.allocated_resources.map Prod.fst).Nodup) :
    (((rsv.release store).2.1).release (rsv.release store).2.2).1 = false := by
  by_cases hg : rsv.status = ReservationStatus.CONFIRMED ∨
      rsv.status = ReservationStatus.PARTIAL
  · have hloop := releaseLoop_success rsv.allocated_resources store store
      true rsv.message hnd (fun q _ => rfl)
    by_cases hs : (releaseLoop rsv.allocated_resources store true rsv.message).1
        = true
    · simp [Reservation.release, hg, hs]
    · -- the first call failed mid-loop: some entry has current < amount,
      -- that entry is left unchanged by the loop, so the second call fails
      -- on it again
      have hall : rsv.allocated_resources.all (relOk store) = false := by
        rw [hloop] at hs
        simpa using hs
      obtain ⟨e, he, hef⟩ : ∃ e ∈ rsv.allocated_resources,
          relOk store e = false := by
        by_contra hcon
        push_neg at hcon
        have : rsv.allocated_resources.all (relOk store) = true :=
          List.all_eq_true.mpr fun e he => by
            have := hcon e he
            cases h : relOk store e
            · exact absurd h this
            · rfl
        rw [this] at hall
        cases hall
      simp only [Reservation.release, if_pos hg, if_neg hs]
      have hg2 : ({ rsv with
          message := (releaseLoop rsv.allocated_resources store true
            rsv.message).2.2 } : Reservation).status
            = ReservationStatus.CONFIRMED ∨
          ({ rsv with
          message := (releaseLoop rsv.allocated_resources store true
            rsv.message).2.2 } : Reservation).status
            = ReservationStatus.PARTIAL := hg
      -- evaluate the success flag of the second loop
      obtain ⟨r, hr, hfail⟩ : ∃ r, alGet store e.1 = some r ∧
          r.capacity.current < e.2 := by
        cases h : alGet store e.1 with
        | none => simp [relOk, h] at hef
        | some r =>
            refine ⟨r, rfl, ?_⟩
            simp only [relOk, h, Bool.not_eq_false] at hef
            simpa using hef
      have hsame : alGet (releaseLoop rsv.allocated_resources store true
          rsv.message).2.1 e.1 = some r := by
        rw [releaseLoop_store_mem rsv.allocated_resources store true
          rsv.message hnd e he, hr, Option.map_some', release_fail_eq r e.2 hfail]
      have hsecond := releaseLoop_success rsv.allocated_resources
        (releaseLoop rsv.allocated_resources store true rsv.message).2.1
        (releaseLoop rsv.allocated_resources store true rsv.message).2.1
        true
        ({ rsv with
          message := (releaseLoop rsv.allocated_resources store true
            rsv.message).2.2 } : Reservation).message
        hnd (fun q _ => rfl)
      have hef2 : relOk (releaseLoop rsv.allocated_resources store true
          rsv.message).2.1 e = false := by
        simp [relOk, hsame, hfail]
      have hall2 : rsv.allocated_resources.all
          (relOk (releaseLoop rsv.allocated_resources store true
            rsv.message).2.1) = false := by
        cases h : rsv.allocated_resources.all
            (relOk (releaseLoop rsv.allocated_resources store true
              rsv.message).2.1)
        · rfl
        · have := List.all_eq_true.mp h e he
          rw [hef2] at this
          cases this
      rw [hsecond, hall2]
      simp
  · obtain ⟨h1, h2⟩ : (rsv.release store).1 = false ∧
        ((rsv.release store).2.1) = { rsv with
          message := "Cannot release reservation" } := by
      simp [Reservation.release, hg]
    rw [h2]
    have hg3 : ¬(({ rsv with message := "Cannot release reservation" }
        : Reservation).status = ReservationStatus.CONFIRMED ∨
        ({ rsv with message := "Cannot release reservation" }
        : Reservation).status = ReservationStatus.PARTIAL) := hg
    simp [Reservation.release, hg3]

theorem confirm_reservation_terminal (m : ReservationManager) (rid : String)
    (now : Rat) (k : String) (rsv : Reservation)
    (hk : alGet m.active_reservations k = some rsv)
    (hterm : rsv.status.isTerminal) :
    ∃ rsv2, alGet ((m.confirm_reservation rid now).2).active_reservations k
        = some rsv2 ∧ rsv2.status = rsv.status := by
  by_cases hkr : rid = k
  · subst hkr
    simp only [ReservationManager.confirm_reservation, hk]
    refine ⟨(rsv.confirm m.resource_registry now).2.1, ?_, ?_⟩
    · exact alGet_alSet_self _ _ _ (by simp [hk])
    · exact confirm_terminal_status rsv _ now hterm
  · cases hm : alGet m.active_reservations rid with
    | none =>
        simp only [ReservationManager.confirm_reservation, hm]
        exact ⟨rsv, hk, rfl⟩
    | some rsv0 =>
        simp only [ReservationManager.confirm_reservation, hm]
        exact ⟨rsv, by rw [alGet_alSet_ne _ _ _ _ hkr]; exact hk, rfl⟩

theorem release_reservation_terminal (m : ReservationManager) (rid : String)
    (k : String) (rsv : Reservation)
    (hk : alGet m.active_reservations k = some rsv)
    (hterm : rsv.status.isTerminal) :
    ∃ rsv2, alGet ((m.release_reservation rid).2).active_reservations k
        = some rsv2 ∧ rsv2.status = rsv.status := by
  by_cases hkr : rid = k
  · subst hkr
    simp only [ReservationManager.release_reservation, hk]
    obtain ⟨hfail, hstat⟩ := release_terminal rsv m.resource_registry hterm
    rw [hfail]
    refine ⟨(rsv.release m.resource_registry).2.1, ?_, hstat⟩
    · simpa using alGet_alSet_self m.active_reservations rid
        (rsv.release m.resource_registry).2.1 (by simp [hk])
  · cases hm : alGet m.active_reservations rid with
    | none =>
        simp only [ReservationManager.release_reservation, hm]
        exact ⟨rsv, hk, rfl⟩
    | some rsv0 =>
        simp only [ReservationManager.release_reservation, hm]
        exact ⟨rsv, by rw [alGet_alSet_ne _ _ _ _ hkr]; exact hk, rfl⟩

theorem cleanupLoop_terminal (now : Rat) (l : List (String × Reservation))
    (st : Store) (k : String) (rsv : Reservation)
    (hk : alGet l k = some rsv) (hterm : rsv.status.isTerminal) :
    alGet (cleanupLoop now l st).2.1 k = some rsv := by
  induction l generalizing st with
  | nil => simp [alGet] at hk
  | cons e rest ih =>
      obtain ⟨k0, rsv0⟩ := e
      rw [alGet_cons] at hk
      by_cases hk0 : k0 = k
      · rw [if_pos hk0] at hk
        injection hk with hk
        subst hk
        have hcond : ¬(rsv0.status = ReservationStatus.PENDING ∧
            rsv0.is_expired now = true) := by
          rintro ⟨hp, _⟩
          rcases hterm with h | h
          · have h2 : rsv0.status = ReservationStatus.RELEASED := h
            rw [hp] at h2
            cases h2
          · have h2 : rsv0.status = ReservationStatus.EXPIRED := h
            rw [hp] at h2
            cases h2
        simp only [cleanupLoop, if_neg hcond]
        rw [alGet_cons, if_pos hk0]
      · rw [if_neg hk0] at hk
        by_cases hcond : rsv0.status = ReservationStatus.PENDING ∧
            rsv0.is_expired now = true
        · simp only [cleanupLoop, if_pos hcond]
          rw [alGet_cons, if_neg hk0]
          exact ih _ hk
        · simp only [cleanupLoop, if_neg hcond]
          rw [alGet_cons, if_neg hk0]
          exact ih _ hk

theorem cleanupLoop_reservations (now : Rat)
    (l : List (String × Reservation)) (st : Store) :
    (cleanupLoop now l st).2.1 = l.map (fun e =>
      if e.2.status = ReservationStatus.PENDING ∧ e.2.is_expired now = true
      then (e.1, { e.2 with status := ReservationStatus.EXPIRED }) else e) := by
  induction l generalizing st with
  | nil => rfl
  | cons e rest ih =>
      obtain ⟨k0, rsv0⟩ := e
      by_cases hcond : rsv0.status = ReservationStatus.PENDING ∧
          rsv0.is_expired now = true
      · simp only [cleanupLoop, if_pos hcond, List.map_cons, ih]
      · simp only [cleanupLoop, if_neg hcond, List.map_cons, ih]

theorem cleanupLoop_count (now : Rat) (l : List (String × Reservation))
    (st : Store) :
    (cleanupLoop now l st).1 = (l.filter (fun e =>
      decide (e.2.status = ReservationStatus.PENDING ∧
        e.2.is_expired now = true))).length := by
  induction l generalizing st with
  | nil => rfl
  | cons e rest ih =>
      obtain ⟨k0, rsv0⟩ := e
      by_cases hcond : rsv0.status = ReservationStatus.PENDING ∧
          rsv0.is_expired now = true
      · simp only [cleanupLoop, if_pos hcond, ih, List.filter_cons,
          decide_eq_true hcond]
        simp
      · simp only [cleanupLoop, if_neg hcond, ih, List.filter_cons,
          decide_eq_false hcond]
        simp

theorem cleanupLoop_registry (now : Rat) (l : List (String × Reservation))
    (st : Store)
    (h : ∀ e ∈ l, ¬(e.2.status = ReservationStatus.PENDING ∧
      e.2.is_expired now = true)) :
    (cleanupLoop now l st).2.2 = st := by
  induction l generalizing st with
  | nil => rfl
  | cons e rest ih =>
      obtain ⟨k0, rsv0⟩ := e
      have hcond := h (k0, rsv0) (List.mem_cons_self _ _)
      simp only [cleanupLoop, if_neg hcond]
      exact ih _ (fun q hq => h q (List.mem_cons_of_mem _ hq))

theorem cleanup_terminal (m : ReservationManager) (now : Rat) (k : String)
    (rsv : Reservation) (hk : alGet m.active_reservations k = some rsv)
    (hterm : rsv.status.isTerminal) :
    alGet ((m.cleanup_expired_reservations now).2).active_reservations k
      = some rsv := by
  simp only [ReservationManager.cleanup_expired_reservations]
  exact cleanupLoop_terminal now m.active_reservations m.resource_registry
    k rsv hk hterm

/-- C2: reservation status is monotonic at RELEASED / EXPIRED: neither
`confirm`, `release`, `confirm_reservation`, `release_reservation` nor
`cleanup_expired_reservations` changes a terminal status; and both
`confirm()` and `release()` return false on the second of two consecutive
calls (for `release`, the entries of `allocated_resources` carry the
distinct keys of the Python dict). -/
theorem c2_status_monotonic :
    (∀ (rsv : Reservation) (store : Store) (now : Rat),
        rsv.status.isTerminal →
        ((rsv.confirm store now).2.1).status = rsv.status) ∧
    (∀ (rsv : Reservation) (store : Store),
        rsv.status.isTerminal →
        ((rsv.release store).2.1).status = rsv.status) ∧
    (∀ (m : ReservationManager) (rid : String) (now : Rat) (k : String)
        (rsv : Reservation),
        alGet m.active_reservations k = some rsv → rsv.status.isTerminal →
        ∃ rsv2,
          alGet ((m.confirm_reservation rid now).2).active_reservations k
            = some rsv2 ∧ rsv2.status = rsv.status) ∧
    (∀ (m : ReservationManager) (rid : String) (k : String)
        (rsv : Reservation),
        alGet m.active_reservations k = some rsv → rsv.status.isTerminal →
        ∃ rsv2,
          alGet ((m.release_reservation rid).2).active_reservations k
            = some rsv2 ∧ rsv2.status = rsv.status) ∧
    (∀ (m : ReservationManager) (now : Rat) (k : String) (rsv : Reservation),
        alGet m.active_reservations k = some rsv → rsv.status.isTerminal →
        alGet ((m.cleanup_expired_reservations now).2).active_reservations k
          = some rsv) ∧
    (∀ (rsv : Reservation) (store : Store) (now1 now2 : Rat),
        (((rsv.confirm store now1).2.1).confirm
          (rsv.confirm store now1).2.2 now2).1 = false) ∧
    (∀ (rsv : Reservation) (store : Store),
        (rsv.allocated_resources.map Prod.fst).Nodup →
        (((rsv.release store).2.1).release
          (rsv.release store).2.2).1 = false) :=
  ⟨confirm_terminal_status,
   fun rsv store hterm => (release_terminal rsv store hterm).2,
   confirm_reservation_terminal,
   release_reservation_terminal,
   cleanup_terminal,
   confirm_twice_false,
   release_twice_false⟩

/-- Concrete reservation (CONFIRMED, one allocated entry) for witnesses. -/
def c2Rsv : Reservation :=
  { id := "rsv-1", requester_id := "alice", requirements := [],
    status := ReservationStatus.CONFIRMED, expires_at := 100,
    allocated_resources := [("res-1", 4)] }

/-- Concrete released reservation for witnesses. -/
def c2RsvReleased : Reservation :=
  { c2Rsv with status := ReservationStatus.RELEASED }

/-- Concrete store holding the allocated resource of `c2Rsv`. -/
def c2Store : Store :=
  [("res-1", { sampleResource with
               capacity := ⟨4, 10, "cores"⟩,
               state := ResourceState.IN_USE })]

/-- C2: witness applying `c2_status_monotonic` at concrete inputs. -/
theorem c2_witness :
    c2RsvReleased.status.isTerminal ∧
    ((c2RsvReleased.confirm c2Store 0).2.1).status = c2RsvReleased.status ∧
    ((c2RsvReleased.release c2Store).2.1).status = c2RsvReleased.status ∧
    (c2Rsv.allocated_resources.map Prod.fst).Nodup ∧
    (((c2Rsv.release c2Store).2.1).release
      (c2Rsv.release c2Store).2.2).1 = false := by
  have hterm : c2RsvReleased.status.isTerminal := Or.inl rfl
  have hnd : (c2Rsv.allocated_resources.map Prod.fst).Nodup := by
    simp [c2Rsv]
  exact ⟨hterm,
    c2_status_monotonic.1 c2RsvReleased c2Store 0 hterm,
    c2_status_monotonic.2.1 c2RsvReleased c2Store hterm,
    hnd,
    c2_status_monotonic.2.2.2.2.2.2 c2Rsv c2Store hnd⟩

/-- C9: the expiry sweep expires exactly the PENDING reservations whose
`expires_at` has passed (PARTIAL / CONFIRMED reservations keep their
status no matter how old), counts them, and touches no resource in the
registry when no reservation is both PENDING and expired. -/
theorem c9_cleanup_only_pending_expired :
    ∀ (m : ReservationManager) (now : Rat),
      ((m.cleanup_expired_reservations now).2).active_reservations
        = m.active_reservations.map (fun e =>
            if e.2.status = ReservationStatus.PENDING ∧
               e.2.is_expired now = true
            then (e.1, { e.2 with status := ReservationStatus.EXPIRED })
            else e) ∧
      (m.cleanup_expired_reservations now).1
        = (m.active_reservations.filter (fun e =>
            decide (e.2.status = ReservationStatus.PENDING ∧
              e.2.is_expired now = true))).length ∧
      ((∀ e ∈ m.active_reservations,
          ¬(e.2.status = ReservationStatus.PENDING ∧
            e.2.is_expired now = true)) →
        ((m.cleanup_expired_reservations now).2).resource_registry
          = m.resource_registry) := by
  intro m now
  refine ⟨?_, ?_, ?_⟩
  · simp only [ReservationManager.cleanup_expired_reservations]
    exact cleanupLoop_reservations now m.active_reservations
      m.resource_registry
  · simp only [ReservationManager.cleanup_expired_reservations]
    exact cleanupLoop_count now m.active_reservations m.resource_registry
  · intro h
    simp only [ReservationManager.cleanup_expired_reservations]
    exact cleanupLoop_registry now m.active_reservations
      m.resource_registry h

/-- Concrete manager with a PARTIAL reservation far past its expiry. -/
def c9Manager : ReservationManager :=
  { active_reservations :=
      [("rsv-1", { c2Rsv with
                   status := ReservationStatus.PARTIAL,
                   expires_at := 10 })],
    resource_registry := c2Store }

/-- C9: witness — sweeping at time 1000000 (far past `expires_at = 10`)
leaves the PARTIAL reservation untouched and the registry unchanged. -/
theorem c9_witness :
    (∀ e ∈ c9Manager.active_reservations,
      ¬(e.2.status = ReservationStatus.PENDING ∧
        e.2.is_expired 1000000 = true)) ∧
    ((c9Manager.cleanup_expired_reservations 1000000).2).active_reservations
      = c9Manager.active_reservations ∧
    (c9Manager.cleanup_expired_reservations 1000000).1 = 0 ∧
    ((c9Manager.cleanup_expired_reservations 1000000).2).resource_registry
      = c9Manager.resource_registry := by
  have hnone : ∀ e ∈ c9Manager.active_reservations,
      ¬(e.2.status = ReservationStatus.PENDING ∧
        e.2.is_expired 1000000 = true) := by
    intro e he
    simp only [c9Manager, c2Rsv, List.mem_singleton] at he
    subst he
    rintro ⟨hp, _⟩
    cases hp
  obtain ⟨hmap, hcount, hreg⟩ :=
    c9_cleanup_only_pending_expired c9Manager 1000000
  refine ⟨hnone, ?_, ?_, hreg hnone⟩
  · rw [hmap]
    simp [c9Manager, c2Rsv]
  · rw [hcount]
    simp [c9Manager, c2Rsv]

/-- Mirrors `PoolingStrategy` (src/src/pooling/pool.py). -/
inductive PoolingStrategy where
  | STATIC | DYNAMIC | ELASTIC
  deriving DecidableEq, Repr

/-- Mirrors `ResourcePool` (src/src/pooling/pool.py).  Dicts and the
available-id set are association lists / id lists; dict deletion and set
discard are modelled by filtering the (unique) key out. -/
structure ResourcePool where
  name : String
  resource_type : ResourceType
  strategy : PoolingStrategy := PoolingStrategy.STATIC
  min_size : Nat := 1
  max_size : Option Nat := none
  idle_timeout_seconds : Option Rat := none
  resources : List (String × Resource) := []
  available_resources : List String := []
  reserved_resources : List (String × String) := []
  last_activity : List (String × Rat) := []
  deriving DecidableEq, Repr

/-- Mirrors `ResourcePool.remove_resource` (src/src/pooling/pool.py,
lines 78-101). -/
def ResourcePool.remove_resource (pool : ResourcePool) (rid : String) :
    Option Resource × ResourcePool :=
  match alGet pool.resources rid with
  | none => (none, pool)
  | some r =>
      (some r,
       { pool with
         resources := pool.resources.filter fun p => !(p.1 == rid),
         available_resources :=
           pool.available_resources.filter fun x => !(x == rid),
         reserved_resources :=
           pool.reserved_resources.filter fun p => !(p.1 == rid),
         last_activity := pool.last_activity.filter fun p => !(p.1 == rid) })

/-- Mirrors `ResourcePool.cleanup_idle_resources` (src/src/pooling/pool.py,
lines 200-231): collects available members idle since before the cutoff,
trims the removal list to the excess above `min_size` when removing all of
them would drop below it (returning 0 when there is no excess), and
removes the rest. -/
def ResourcePool.cleanup_idle_resources (pool : ResourcePool) (now : Rat) :
    Nat × ResourcePool :=
  match pool.idle_timeout_seconds with
  | none => (0, pool)
  | some t =>
      let idle_cutoff := now - t
      let resources_to_remove := (pool.last_activity.filter fun p =>
        pool.available_resources.contains p.1 &&
          decide (p.2 < idle_cutoff)).map Prod.fst
      if (pool.resources.length : Int) - resources_to_remove.length
          < pool.min_size then
        let excess : Int := (pool.resources.length : Int) - pool.min_size
        if excess ≤ 0 then (0, pool)
        else
          let tr := resources_to_remove.take excess.toNat
          (tr.length, tr.foldl (fun p rid => (p.remove_resource rid).2) pool)
      else
        (resources_to_remove.length,
         resources_to_remove.foldl
           (fun p rid => (p.remove_resource rid).2) pool)

theorem alGet_filter_ne {α : Type} (l : List (String × α)) (k k2 : String)
    (h : k ≠ k2) :
    alGet (l.filter fun p => !(p.1 == k)) k2 = alGet l k2 := by
  induction l with
  | nil => rfl
  | cons x rest ih =>
      by_cases hx : x.1 = k
      · rw [List.filter_cons_of_neg (by simp [hx]), alGet_cons,
          if_neg (by rw [hx]; exact h), ih]
      · rw [List.filter_cons_of_pos (by simp [hx]), alGet_cons, alGet_cons]
        by_cases hk2 : x.1 = k2
        · rw [if_pos hk2, if_pos hk2]
        · rw [if_neg hk2, if_neg hk2, ih]

theorem filter_key_length {α : Type} (l : List (String × α)) (k : String)
    (hnd : (l.map Prod.fst).Nodup) (h : (alGet l k).isSome) :
    (l.filter fun p => !(p.1 == k)).length + 1 = l.length := by
  induction l with
  | nil => simp [alGet] at h
  | cons x rest ih =>
      simp only [List.map_cons, List.nodup_cons] at hnd
      obtain ⟨hnotmem, hndr⟩ := hnd
      by_cases hx : x.1 = k
      · rw [List.filter_cons_of_neg (by simp [hx])]
        have hall : rest.filter (fun p => !(p.1 == k)) = rest :=
          List.filter_eq_self.mpr fun p hp => by
            have hpk : p.1 ≠ k := by
              intro hc
              have hmem : p.1 ∈ rest.map Prod.fst :=
                List.mem_map_of_mem Prod.fst hp
              rw [hc, ← hx] at hmem
              exact hnotmem hmem
            simp [hpk]
        rw [hall]
        simp
      · rw [List.filter_cons_of_pos (by simp [hx])]
        rw [alGet_cons, if_neg hx] at h
        simp only [List.length_cons]
        rw [← ih hndr h]

theorem filter_key_nodup {α : Type} (l : List (String × α)) (k : String)
    (hnd : (l.map Prod.fst).Nodup) :
    ((l.filter fun p => !(p.1 == k)).map Prod.fst).Nodup :=
  ((List.filter_sublist l).map Prod.fst).nodup hnd

theorem removals_length (ids : List String) (pool : ResourcePool)
    (hnd_ids : ids.Nodup)
    (hpres : ∀ i ∈ ids, (alGet pool.resources i).isSome)
    (hnd : (pool.resources.map Prod.fst).Nodup) :
    (ids.foldl (fun p rid => (p.remove_resource rid).2) pool).resources.length
      + ids.length = pool.resources.length := by
  induction ids generalizing pool with
  | nil => simp
  | cons i rest ih =>
      simp only [List.nodup_cons] at hnd_ids
      obtain ⟨hinotmem, hndr⟩ := hnd_ids
      have hi : (alGet pool.resources i).isSome :=
        hpres i (List.mem_cons_self _ _)
      simp only [List.foldl_cons]
      cases hget : alGet pool.resources i with
      | none => rw [hget] at hi; cases hi
      | some r =>
          have hstep : ((pool.remove_resource i).2).resources
              = pool.resources.filter fun p => !(p.1 == i) := by
            simp [ResourcePool.remove_resource, hget]
          have hpres2 : ∀ j ∈ rest,
              (alGet ((pool.remove_resource i).2).resources j).isSome := by
            intro j hj
            rw [hstep,
              alGet_filter_ne _ _ _ (fun hij => hinotmem (by rw [hij]; exact hj))]
            exact hpres j (List.mem_cons_of_mem _ hj)
          have hnd2 : (((pool.remove_resource i).2).resources.map
              Prod.fst).Nodup := by
            rw [hstep]
            exact filter_key_nodup _ _ hnd
          have := ih ((pool.remove_resource i).2) hndr hpres2 hnd2
          rw [List.length_cons, ← Nat.add_assoc, this, hstep]
          rw [← filter_key_length pool.resources i hnd hi]

/-- A pool member resource with the given id. -/
def c7Res (i : String) : Resource := { sampleResource with id := i }

/-- Concrete pool: `min_size = 2`, five members, all available and all
idle since time 0. -/
def c7Pool : ResourcePool :=
  { name := "pool", resource_type := ResourceType.COMPUTE,
    min_size := 2, idle_timeout_seconds := some 60,
    resources := [("p1", c7Res "p1"), ("p2", c7Res "p2"),
                  ("p3", c7Res "p3"), ("p4", c7Res "p4"),
                  ("p5", c7Res "p5")],
    available_resources := ["p1", "p2", "p3", "p4", "p5"],
    last_activity := [("p1", 0), ("p2", 0), ("p3", 0), ("p4", 0), ("p5", 0)] }

/-- C7: `cleanup_idle_resources` never brings the member count below
`min_size` (more precisely below `min min_size (previous count)`), under
the class invariants that `last_activity` and `resources` have unique
dict keys and every tracked id is a member; and the concrete scenario: a
pool with `min_size = 2` and 5 idle members keeps exactly 2 members,
removing 3. -/
theorem c7_cleanup_respects_min_size :
    (∀ (pool : ResourcePool) (now : Rat),
      (pool.last_activity.map Prod.fst).Nodup →
      (∀ i ∈ pool.last_activity.map Prod.fst,
        (alGet pool.resources i).isSome) →
      (pool.resources.map Prod.fst).Nodup →
      min pool.min_size pool.resources.length
        ≤ ((pool.cleanup_idle_resources now).2).resources.length) ∧
    ((c7Pool.cleanup_idle_resources 1000).2).resources.length = 2 ∧
    (c7Pool.cleanup_idle_resources 1000).1 = 3 := by
  refine ⟨?_, ?_, ?_⟩
  · intro pool now hndA hpres hndR
    cases ht : pool.idle_timeout_seconds with
    | none =>
        simp only [ResourcePool.cleanup_idle_resources, ht]
        exact min_le_right _ _
    | some t =>
        simp only [ResourcePool.cleanup_idle_resources, ht]
        set toRemove := (pool.last_activity.filter fun p =>
          pool.available_resources.contains p.1 &&
            decide (p.2 < now - t)).map Prod.fst with htr
        have hsubl : toRemove.Sublist (pool.last_activity.map Prod.fst) :=
          (List.filter_sublist _).map Prod.fst
        have hndT : toRemove.Nodup := hsubl.nodup hndA
        have hpresT : ∀ i ∈ toRemove, (alGet pool.resources i).isSome :=
          fun i hi => hpres i (hsubl.subset hi)
        by_cases hbr : (pool.resources.length : Int) - toRemove.length
            < pool.min_size
        · rw [if_pos hbr]
          by_cases hex : ((pool.resources.length : Int) - pool.min_size) ≤ 0
          · rw [if_pos hex]
            exact min_le_right _ _
          · rw [if_neg hex]
            have hndTr : (toRemove.take
                ((pool.resources.length : Int) - pool.min_size).toNat).Nodup :=
              (List.take_sublist _ _).nodup hndT
            have hlen := removals_length
              (toRemove.take
                ((pool.resources.length : Int) - pool.min_size).toNat)
              pool hndTr
              (fun i hi => hpresT i (List.take_subset _ _ hi)) hndR
            have htk : (toRemove.take
                ((pool.resources.length : Int) - pool.min_size).toNat).length
                ≤ ((pool.resources.length : Int) - pool.min_size).toNat :=
              List.length_take_le _ _
            dsimp only
            omega
        · rw [if_neg hbr]
          have hlen := removals_length toRemove pool hndT hpresT hndR
          dsimp only
          omega
  · simp only [ResourcePool.cleanup_idle_resources, c7Pool, c7Res,
      sampleResource, show ((1000 : Rat) - 60) = 940 from by norm_num]
    norm_num [ResourcePool.remove_resource, alGet]
    decide
  · simp only [ResourcePool.cleanup_idle_resources, c7Pool, c7Res,
      sampleResource, show ((1000 : Rat) - 60) = 940 from by norm_num]
    norm_num [ResourcePool.remove_resource, alGet]
    decide

/-- C7: witness applying the general part at the concrete pool. -/
theorem c7_witness :
    (c7Pool.last_activity.map Prod.fst).Nodup ∧
    (∀ i ∈ c7Pool.last_activity.map Prod.fst,
      (alGet c7Pool.resources i).isSome) ∧
    (c7Pool.resources.map Prod.fst).Nodup ∧
    min c7Pool.min_size c7Pool.resources.length
      ≤ ((c7Pool.cleanup_idle_resources 1000).2).resources.length := by
  have h1 : (c7Pool.last_activity.map Prod.fst).Nodup := by
    simp [c7Pool]
  have h2 : ∀ i ∈ c7Pool.last_activity.map Prod.fst,
      (alGet c7Pool.resources i).isSome := by
    intro i hi
    simp only [c7Pool, List.map_cons, List.map_nil, List.mem_cons,
      List.not_mem_nil, or_false] at hi
    rcases hi with h | h | h | h | h <;>
      (subst h; simp [c7Pool, alGet, c7Res, sampleResource])
  have h3 : (c7Pool.resources.map Prod.fst).Nodup := by
    simp [c7Pool]
  exact ⟨h1, h2, h3,
    c7_cleanup_respects_min_size.1 c7Pool 1000 h1 h2 h3⟩

/-- Mirrors `MetricType` (src/src/monitoring/metrics.py). -/
inductive MetricType where
  | UTILIZATION | ALLOCATION_RATE | CONTENTION_RATE | WAIT_TIME
  | THROUGHPUT | EFFICIENCY | CUSTOM
  deriving DecidableEq, Repr

/-- Mirrors `MetricValue` (src/src/monitoring/metrics.py). -/
structure MetricValue where
  value : Rat
  timestamp : Rat
  labels : List (String × String) := []
  deriving DecidableEq, Repr

/-- Mirrors `MetricSeries` (src/src/monitoring/metrics.py). -/
structure MetricSeries where
  name : String
  type : MetricType
  unit : String
  description : String
  values : List MetricValue := []
  max_history : Nat := 1000
  deriving DecidableEq, Repr

/-- Mirrors `MetricSeries.add_value` (src/src/monitoring/metrics.py,
lines 48-64): appends the value, then trims to the last `max_history`
entries when over.  The Python slice `values[-max_history:]` is the whole
list when `max_history = 0` (negative zero slicing), embedded as the
extra branch. -/
def MetricSeries.add_value (s : MetricSeries) (value : Rat)
    (labels : List (String × String)) (now : Rat) : MetricSeries :=
  let metric_value : MetricValue :=
    { value := value, timestamp := now, labels := labels }
  let vs := s.values ++ [metric_value]
  if vs.length > s.max_history then
    if s.max_history = 0 then { s with values := vs }
    else { s with values := vs.drop (vs.length - s.max_history) }
  else { s with values := vs }

/-- Mirrors `MetricsCollector` (src/src/monitoring/metrics.py). -/
structure MetricsCollector where
  metrics : List (String × MetricSeries) := []
  deriving DecidableEq, Repr

/-- Mirrors `MetricsCollector.register_metric`. -/
def MetricsCollector.register_metric (c : MetricsCollector) (name : String)
    (metric_type : MetricType) (unit : String) (description : String)
    (max_history : Nat := 1000) : MetricsCollector × MetricSeries :=
  let metric : MetricSeries :=
    { name := name, type := metric_type, unit := unit,
      description := description, max_history := max_history }
  ({ c with metrics := alIns c.metrics name metric }, metric)

/-- Mirrors `MetricsCollector.record_metric` (src/src/monitoring/metrics.py,
lines 173-190): the Python `raise ValueError` for an unregistered name is
embedded as `Except.error`. -/
def MetricsCollector.record_metric (c : MetricsCollector) (name : String)
    (value : Rat) (labels : List (String × String)) (now : Rat) :
    Except String MetricsCollector :=
  match alGet c.metrics name with
  | none => Except.error ("Metric not registered: " ++ name)
  | some s =>
      Except.ok
        { c with metrics := alSet c.metrics name (s.add_value value labels now) }

theorem getLast?_drop_of_lt {α : Type} (l : List α) (k : Nat)
    (h : k < l.length) : (l.drop k).getLast? = l.getLast? := by
  induction l generalizing k with
  | nil => simp at h
  | cons x rest ih =>
      cases k with
      | zero => rfl
      | succ k2 =>
          simp only [List.drop_succ_cons]
          rw [ih k2 (by simpa using h)]
          cases rest with
          | nil => simp at h
          | cons y t => rw [List.getLast?_cons_cons]

/-- C10: `record_metric` fails with an error (the Python `ValueError`)
exactly when the name is unregistered; when registered it returns
normally and the named series gains exactly one value: the new value sits
at the end and the length is `min (old + 1) max_history` (for the
positive `max_history` the source always uses). -/
theorem c10_record_metric_registered_or_error :
    ∀ (c : MetricsCollector) (name : String) (v : Rat)
      (labels : List (String × String)) (now : Rat),
      (alGet c.metrics name = none →
        ∃ msg, c.record_metric name v labels now = Except.error msg) ∧
      (∀ s, alGet c.metrics name = some s →
        ∃ c2, c.record_metric name v labels now = Except.ok c2 ∧
          ∃ s2, alGet c2.metrics name = some s2 ∧
            s2.values.getLast? = some ⟨v, now, labels⟩ ∧
            (1 ≤ s.max_history →
              s2.values.length = min (s.values.length + 1) s.max_history)) := by
  intro c name v labels now
  constructor
  · intro hnone
    exact ⟨"Metric not registered: " ++ name,
      by simp [MetricsCollector.record_metric, hnone]⟩
  · intro s hs
    refine ⟨⟨alSet c.metrics name (s.add_value v labels now)⟩,
      by simp [MetricsCollector.record_metric, hs], ?_⟩
    refine ⟨s.add_value v labels now, ?_, ?_, ?_⟩
    · exact alGet_alSet_self _ _ _ (by simp [hs])
    · simp only [MetricSeries.add_value]
      by_cases hlen : s.values.length + 1 > s.max_history
      · by_cases h0 : s.max_history = 0
        · simp only [List.length_append, List.length_cons,
            List.length_nil, zero_add, hlen, if_pos, h0, if_pos]
          simp [List.getLast?_concat]
        · simp only [List.length_append, List.length_cons, List.length_nil,
            zero_add]
          rw [if_pos (by simpa using hlen), if_neg h0]
          have hklt : s.values.length + 1 - s.max_history
              < (s.values ++ [(⟨v, now, labels⟩ : MetricValue)]).length := by
            simp only [List.length_append, List.length_cons, List.length_nil,
              zero_add]
            omega
          rw [getLast?_drop_of_lt _ _ (by simpa using hklt)]
          simp [List.getLast?_concat]
      · simp only [List.length_append, List.length_cons, List.length_nil,
          zero_add]
        rw [if_neg (by simpa using hlen)]
        simp [List.getLast?_concat]
    · intro h1
      simp only [MetricSeries.add_value]
      by_cases hlen : s.values.length + 1 > s.max_history
      · have h0 : ¬ s.max_history = 0 := by omega
        simp only [List.length_append, List.length_cons, List.length_nil,
          zero_add]
        rw [if_pos (by simpa using hlen), if_neg h0]
        simp only [List.length_drop, List.length_append, List.length_cons,
          List.length_nil, zero_add]
        omega
      · simp only [List.length_append, List.length_cons, List.length_nil,
          zero_add]
        rw [if_neg (by simpa using hlen)]
        simp only [List.length_append, List.length_cons, List.length_nil,
          zero_add]
        omega

/-- Concrete collector with one registered series for the C10 witness. -/
def c10Collector : MetricsCollector :=
  { metrics := [("cpu_util",
      { name := "cpu_util", type := MetricType.UTILIZATION, unit := "pct",
        description := "cpu utilization", values := [], max_history := 2 })] }

/-- C10: witness — recording on the registered name succeeds and appends
one value; recording on an unregistered name errors. -/
theorem c10_witness :
    (alGet c10Collector.metrics "nope" = none ∧
      ∃ msg, c10Collector.record_metric "nope" 5 [] 7
        = Except.error msg) ∧
    (∃ s, alGet c10Collector.metrics "cpu_util" = some s ∧
      ∃ c2, c10Collector.record_metric "cpu_util" 5 [] 7 = Except.ok c2 ∧
        ∃ s2, alGet c2.metrics "cpu_util" = some s2 ∧
          s2.values.getLast? = some ⟨5, 7, []⟩) := by
  constructor
  · have hnone : alGet c10Collector.metrics "nope" = none := by
      simp [c10Collector, alGet]
    exact ⟨hnone,
      ((c10_record_metric_registered_or_error c10Collector "nope" 5 [] 7).1
        hnone)⟩
  · have hs : alGet c10Collector.metrics "cpu_util"
        = some { name := "cpu_util", type := MetricType.UTILIZATION,
                 unit := "pct", description := "cpu utilization",
                 values := [], max_history := 2 } := by
      simp [c10Collector, alGet]
    obtain ⟨c2, hc2, s2, hs2, hlast, _⟩ :=
      (c10_record_metric_registered_or_error c10Collector "cpu_util"
        5 [] 7).2 _ hs
    exact ⟨_, hs, c2, hc2, s2, hs2, hlast⟩

/-- Stable ordered insert: the new element goes before the first element
that is not strictly below it (so equal keys keep their original order). -/
def sortStableInsert {α : Type} (lt : α → α → Bool) (x : α) :
    List α → List α
  | [] => [x]
  | y :: ys => if lt y x then y :: sortStableInsert lt x ys else x :: y :: ys

/-- Stable insertion sort, modelling the stable Python builtin `sorted`
with a strict comparison on the sort key. -/
def sortStableBy {α : Type} (lt : α → α → Bool) : List α → List α
  | [] => []
  | x :: xs => sortStableInsert lt x (sortStableBy lt xs)

/-- Mirrors `ReservationManager.get_available_resources`, keeping ids. -/
def ReservationManager.get_available_resources (m : ReservationManager)
    (req : ResourceRequirement) : List (String × Resource) :=
  m.resource_registry.filter fun p =>
    p.2.is_available && req.can_be_satisfied_by p.2

/-- The inner candidate loop of each strategy: try `reserve` on each
candidate in order, stopping at the first that accepts. -/
def tryReserveList (amount : Rat) (owner : String) :
    List (String × Resource) → Option (String × Resource)
  | [] => none
  | (rid, r) :: rest =>
      let res := r.reserve amount owner
      if res.1 then some (rid, res.2) else tryReserveList amount owner rest

/-- The requirement loop of `_apply_balanced_strategy`
(src/src/protocols/reservation.py, lines 271-289): per requirement,
filter available satisfying resources, sort by utilization percentage
ascending (stable), reserve from the first accepting resource, and record
it in the allocation dict (`alIns` is the dict assignment, which
overwrites when two requirements pick the same resource). -/
def balancedLoop (requester : String) :
    List ResourceRequirement → Store → List (String × Rat) →
    Store × List (String × Rat)
  | [], st, alloc => (st, alloc)
  | req :: rest, st, alloc =>
      let candidates := st.filter fun p =>
        p.2.is_available && req.can_be_satisfied_by p.2
      let sorted_candidates := sortStableBy
        (fun a b => decide (a.2.capacity.utilization_percentage
          < b.2.capacity.utilization_percentage)) candidates
      match tryReserveList req.amount requester sorted_candidates with
      | some (rid, r2) =>
          balancedLoop requester rest (alSet st rid r2)
            (alIns alloc rid req.amount)
      | none => balancedLoop requester rest st alloc

/-- Mirrors `ReservationManager.create_reservation`
(src/src/protocols/reservation.py, lines 142-191) for the BALANCED
strategy (the default, and the one `ResourceAllocator.allocate` uses);
the fresh uuid is passed in as `newId`, the current time as `now`. -/
def ReservationManager.create_reservation (m : ReservationManager)
    (newId requester_id : String) (requirements : List ResourceRequirement)
    (now : Rat) (timeout : Rat := 300) : Reservation × ReservationManager :=
  let out := balancedLoop requester_id requirements m.resource_registry []
  let status :=
    if !out.2.isEmpty then
      if out.2.length = requirements.length then ReservationStatus.PENDING
      else ReservationStatus.PARTIAL
    else ReservationStatus.FAILED
  let message :=
    if !out.2.isEmpty then
      if out.2.length = requirements.length then
        "All required resources allocated"
      else "Only some required resources could be allocated"
    else "Failed to allocate any required resources"
  let rsv : Reservation :=
    { id := newId, requester_id := requester_id,
      requirements := requirements,
      strategy := ReservationStrategy.BALANCED, status := status,
      created_at := now, expires_at := now + timeout,
      allocated_resources := out.2, message := message }
  (rsv, { m with
          resource_registry := out.1,
          active_reservations := alIns m.active_reservations newId rsv })

/-- Mirrors `AllocationStatus` (src/src/allocation/allocator.py). -/
inductive AllocationStatus where
  | SUCCESS | PARTIAL | FAILED | PENDING | DEFERRED
  deriving DecidableEq, Repr

/-- Mirrors `AllocationResult` (src/src/allocation/allocator.py). -/
structure AllocationResult where
  status : AllocationStatus
  reservation_id : Option String := none
  allocated_resources : List (String × Rat) := []
  unsatisfied_requirements : List ResourceRequirement := []
  message : String := ""
  deriving DecidableEq, Repr

/-- Mirrors `ResourceAllocator` (src/src/allocation/allocator.py). -/
structure ResourceAllocator where
  reservation_manager : ReservationManager
  pending_allocations : List (String × String × List ResourceRequirement) := []
  deriving DecidableEq, Repr

/-- Mirrors `ResourceAllocator.allocate` (src/src/allocation/allocator.py,
lines 65-129) as the source actually executes.  `create_reservation` runs
first, reserving resources and storing the reservation; then line 95
reads the name `ReservationStatus`, which allocator.py never imports
(line 14 imports only `ReservationManager`, `ReservationStrategy` and
`Reservation`) nor defines — Python raises NameError there, before any
status branch, on every call.  The raised exception is embedded as
`Except.error`; the manager state at the moment of the raise (the
mutations of `create_reservation` persist) is returned alongside. -/
def ResourceAllocator.allocate (a : ResourceAllocator)
    (newId requester_id : String) (requirements : List ResourceRequirement)
    (wait_if_unavailable : Bool) (now : Rat) :
    Except String AllocationResult × ResourceAllocator :=
  let out := a.reservation_manager.create_reservation newId requester_id
    requirements now
  (Except.error "NameError: name ReservationStatus is not defined",
   { a with reservation_manager := out.2 })

/-- First requirement of the C4 scenario: 5 cores of compute. -/
def c4ReqA : ResourceRequirement :=
  { resource_type := ResourceType.COMPUTE, amount := 5, unit := "cores" }

/-- Second requirement of the C4 scenario: 100 cores of compute (cannot
be satisfied by the 10-core resource). -/
def c4ReqB : ResourceRequirement :=
  { resource_type := ResourceType.COMPUTE, amount := 100, unit := "cores" }

/-- Allocator over a registry with a single 10-core compute resource. -/
def c4Allocator : ResourceAllocator :=
  { reservation_manager :=
      { active_reservations := [],
        resource_registry := [("res-1", sampleResource)] } }

/-- The reservation `allocate` creates in the C4 scenario. -/
def c4Created : Reservation × ReservationManager :=
  c4Allocator.reservation_manager.create_reservation "rsv-1" "alice"
    [c4ReqA, c4ReqB] 0

/-- The full allocate call of the C4 scenario (no waiting). -/
def c4Run : Except String AllocationResult × ResourceAllocator :=
  c4Allocator.allocate "rsv-1" "alice" [c4ReqA, c4ReqB] false 0

/-- C4: the code bug, evaluated at the failing input.  The reservation
built inside `allocate` is PARTIAL with the single entry ("res-1", 5)
(only the 5-core compute requirement matched, reserving 5 of the 10
cores) — exactly the premise of the claim.  But `allocate` then raises
NameError (allocator.py line 95 reads `ReservationStatus`, a name the
module never imports), so no AllocationResult with status PARTIAL and no
unsatisfied_requirements list is ever returned, the reservation stays
stored with status PARTIAL, and the reserved 5 cores are never
released. -/
theorem c4_allocate_raises_name_error :
    c4Created.1.status = ReservationStatus.PARTIAL ∧
    c4Created.1.allocated_resources = [("res-1", 5)] ∧
    c4Run.1 = Except.error "NameError: name ReservationStatus is not defined" ∧
    (alGet c4Run.2.reservation_manager.active_reservations "rsv-1").map
      Reservation.status = some ReservationStatus.PARTIAL ∧
    (alGet c4Run.2.reservation_manager.resource_registry "res-1").map
      (fun r => r.capacity.current) = some 5 := by
  refine ⟨?_, ?_, ?_, ?_, ?_⟩ <;>
    norm_num [c4Run, c4Created, c4Allocator, c4ReqA, c4ReqB, sampleResource,
      ResourceAllocator.allocate, ReservationManager.create_reservation,
      balancedLoop, tryReserveList, sortStableBy, sortStableInsert,
      Resource.reserve, Resource.is_available, ResourceCapacity.available,
      ResourceCapacity.utilization_percentage,
      ResourceRequirement.can_be_satisfied_by, alGet, alSet, alIns] <;> decide

/-- An entry of `PriorityAllocationPolicy.pending_allocations`: the
Python tuple `(-priority, requester_id, requirements)`. -/
structure PolEntry where
  neg_priority : Int
  requester_id : String
  requirements : List ResourceRequirement
  deriving DecidableEq, Repr

/-- The strict order `heapq` compares entries with: Python tuple
comparison on `(neg_priority, requester_id, ...)`.  The third component
is compared only when the first two tie, and comparing two
`ResourceRequirement` lists with `<` raises TypeError in Python, so no
correct run depends on it; the embedding orders by the first two
components. -/
def PolEntry.lt (a b : PolEntry) : Bool :=
  decide (a.neg_priority < b.neg_priority) ||
    (a.neg_priority == b.neg_priority &&
      decide (a.requester_id < b.requester_id))

/-- The weak key order on entries (used to state sortedness). -/
def polKeyLe (a b : PolEntry) : Prop :=
  a.neg_priority < b.neg_priority ∨
    (a.neg_priority = b.neg_priority ∧ a.requester_id ≤ b.requester_id)

instance (a b : PolEntry) : Decidable (polKeyLe a b) := by
  unfold polKeyLe
  infer_instance

/-- `heapq.heappush` on the priority queue, modelled through the heap
contract: the queue is kept sorted by the entry order, smallest first, so
`heappush` is an ordered insert and `heappop` takes the head. -/
def heappush (q : List PolEntry) (e : PolEntry) : List PolEntry :=
  sortStableInsert PolEntry.lt e q

/-- Mirrors `PriorityAllocationPolicy`
(src/src/policies/allocation_policy.py). -/
structure PriorityAllocationPolicy where
  name : String
  requester_priorities : List (String × Int) := []
  pending_allocations : List PolEntry := []
  deriving DecidableEq, Repr

/-- Mirrors `PriorityAllocationPolicy.set_requester_priority`. -/
def PriorityAllocationPolicy.set_requester_priority
    (pol : PriorityAllocationPolicy) (rid : String) (priority : Int) :
    PriorityAllocationPolicy :=
  { pol with requester_priorities := alIns pol.requester_priorities rid priority }

/-- Mirrors `PriorityAllocationPolicy.get_requester_priority` (default 0). -/
def PriorityAllocationPolicy.get_requester_priority
    (pol : PriorityAllocationPolicy) (rid : String) : Int :=
  (alGet pol.requester_priorities rid).getD 0

/-- Mirrors `PriorityAllocationPolicy.allocate`
(src/src/policies/allocation_policy.py, lines 270-301).  The underlying
`ResourceAllocator.allocate` call is abstracted as a state-passing
function `allocFn`, the boundary the policy calls through. -/
def PriorityAllocationPolicy.allocate {σ : Type}
    (allocFn : σ → String → List ResourceRequirement →
      AllocationResult × σ)
    (pol : PriorityAllocationPolicy) (s : σ) (requester_id : String)
    (requirements : List ResourceRequirement) :
    AllocationResult × PriorityAllocationPolicy × σ :=
  let priority := pol.get_requester_priority requester_id
  let out := allocFn s requester_id requirements
  if out.1.status = AllocationStatus.FAILED then
    ({ out.1 with
       status := AllocationStatus.DEFERRED,
       message := "Allocation queued" },
     { pol with pending_allocations := heappush pol.pending_allocations ⟨-priority, requester_id, requirements⟩ },
     out.2)
  else (out.1, pol, out.2)

/-- The while loop of `process_pending_allocations`
(src/src/policies/allocation_policy.py, lines 303-329): pop the least
entry (highest priority), attempt allocation; count successes and keep
going, or push the failed entry back unchanged and stop.  Returns
(count, final queue, final state, attempted entries in order). -/
def processLoop {σ : Type}
    (allocFn : σ → String → List ResourceRequirement →
      AllocationResult × σ) :
    List PolEntry → σ → Nat × List PolEntry × σ × List PolEntry
  | [], s => (0, [], s, [])
  | e :: rest, s =>
      let out := allocFn s e.requester_id e.requirements
      if out.1.status = AllocationStatus.SUCCESS then
        let next := processLoop allocFn rest out.2
        (next.1 + 1, next.2.1, next.2.2.1, e :: next.2.2.2)
      else
        (0, heappush rest e, out.2, [e])

/-- Mirrors `PriorityAllocationPolicy.process_pending_allocations`. -/
def PriorityAllocationPolicy.process_pending_allocations {σ : Type}
    (allocFn : σ → String → List ResourceRequirement →
      AllocationResult × σ)
    (pol : PriorityAllocationPolicy) (s : σ) :
    Nat × PriorityAllocationPolicy × σ :=
  let out := processLoop allocFn pol.pending_allocations s
  (out.1, { pol with pending_allocations := out.2.1 }, out.2.2.1)

theorem polKeyLe_of_not_lt (a b : PolEntry) (h : PolEntry.lt b a = false) :
    polKeyLe a b := by
  simp only [PolEntry.lt, Bool.or_eq_false_iff, Bool.and_eq_false_iff,
    decide_eq_false_iff_not, not_lt, beq_eq_false_iff_ne, ne_eq] at h
  obtain ⟨h1, h2⟩ := h
  rcases lt_or_eq_of_le h1 with hlt | heq
  · exact Or.inl hlt
  · rcases h2 with h2 | h2
    · exact absurd heq.symm h2
    · exact Or.inr ⟨heq, h2⟩

theorem lt_false_of_polKeyLe (a b : PolEntry) (h : polKeyLe a b) :
    PolEntry.lt b a = false := by
  simp only [PolEntry.lt, Bool.or_eq_false_iff, Bool.and_eq_false_iff,
    decide_eq_false_iff_not, not_lt, beq_eq_false_iff_ne, ne_eq]
  rcases h with h | ⟨h1, h2⟩
  · exact ⟨le_of_lt h, Or.inl (by omega)⟩
  · exact ⟨le_of_eq h1, Or.inr h2⟩

theorem heappush_of_head (e : PolEntry) (rest : List PolEntry)
    (h : ∀ y ∈ rest, polKeyLe e y) : heappush rest e = e :: rest := by
  cases rest with
  | nil => rfl
  | cons y ys =>
      simp only [heappush, sortStableInsert]
      rw [lt_false_of_polKeyLe e y (h y (List.mem_cons_self _ _))]
      simp

theorem processLoop_spec {σ : Type}
    (allocFn : σ → String → List ResourceRequirement →
      AllocationResult × σ)
    (q : List PolEntry) (s : σ) (hq : List.Pairwise polKeyLe q) :
    (processLoop allocFn q s).2.2.2
      = q.take ((processLoop allocFn q s).2.2.2).length ∧
    (processLoop allocFn q s).2.1 = q.drop (processLoop allocFn q s).1 ∧
    (((processLoop allocFn q s).2.2.2).length = (processLoop allocFn q s).1 ∨
      ((processLoop allocFn q s).2.2.2).length
        = (processLoop allocFn q s).1 + 1) := by
  induction q generalizing s with
  | nil => exact ⟨rfl, rfl, Or.inl rfl⟩
  | cons e rest ih =>
      obtain ⟨he, hrest⟩ := List.pairwise_cons.mp hq
      by_cases hs : (allocFn s e.requester_id e.requirements).1.status
          = AllocationStatus.SUCCESS
      · obtain ⟨ih1, ih2, ih3⟩ :=
          ih (allocFn s e.requester_id e.requirements).2 hrest
        simp only [processLoop, if_pos hs]
        refine ⟨?_, ?_, ?_⟩
        · simp only [List.length_cons, List.take_succ_cons]
          rw [← ih1]
        · simp only [List.drop_succ_cons]
          rw [← ih2]
        · rcases ih3 with h | h
          · exact Or.inl (by simp [h])
          · exact Or.inr (by simp [h])
      · simp only [processLoop, if_neg hs]
        refine ⟨?_, ?_, Or.inr rfl⟩
        · simp
        · simp only [List.drop_zero]
          exact heappush_of_head e rest he

/-- Outcome of a failed allocator call in the C5 scenario. -/
def c5FailResult : AllocationResult :=
  { status := AllocationStatus.FAILED,
    message := "Failed to allocate any resources" }

/-- Outcome of a successful allocator call in the C5 scenario. -/
def c5OkResult : AllocationResult :=
  { status := AllocationStatus.SUCCESS,
    message := "All resources allocated successfully" }

/-- Allocator boundary that can satisfy nothing (used to queue the three
requests). -/
def c5AllocNone :
    Unit → String → List ResourceRequirement → AllocationResult × Unit :=
  fun _ _ _ => (c5FailResult, ())

/-- Allocator boundary where only the priority-5 requester `r5` can
currently be satisfied. -/
def c5AllocOnlyR5 :
    Unit → String → List ResourceRequirement → AllocationResult × Unit :=
  fun _ rid _ => (if rid == "r5" then c5OkResult else c5FailResult, ())

/-- The policy with requester priorities r5 -> 5, r1 -> 1, r3 -> 3. -/
def c5Pol1 : PriorityAllocationPolicy :=
  (((PriorityAllocationPolicy.mk "priority-policy" [] []
    ).set_requester_priority "r5" 5
    ).set_requester_priority "r1" 1
    ).set_requester_priority "r3" 3

/-- The policy after queueing the three failed requests, submitted in the
order r5, r1, r3 (so priorities [5, 1, 3]). -/
def c5PolQ : PriorityAllocationPolicy :=
  (PriorityAllocationPolicy.allocate c5AllocNone
    ((PriorityAllocationPolicy.allocate c5AllocNone
      ((PriorityAllocationPolicy.allocate c5AllocNone c5Pol1 () "r5" []).2.1)
      () "r1" []).2.1)
    () "r3" []).2.1

/-- One `process_pending_allocations` pass where only r5 is satisfiable. -/
def c5Run : Nat × PriorityAllocationPolicy × Unit :=
  PriorityAllocationPolicy.process_pending_allocations c5AllocOnlyR5
    c5PolQ ()

/-- C5: amended form.  On a queue that is a valid heap (sorted by the
entry order), one pass attempts a prefix of the queue in order — with
pairwise-distinct priorities that order is strictly descending priority —
all attempts but possibly the last succeed, and the final queue is
exactly the unattempted suffix with the failed entry back at its head,
unchanged (`final = drop count`).  In the concrete scenario with queued
priorities [5, 1, 3] and only the priority-5 request satisfiable, one
pass satisfies exactly the priority-5 request, attempts priority 3 and
stops, leaving the priority-3 and priority-1 entries queued — in
priority order (3 before 1), not in original submission order (the
corrected part; see `c5_counterexample`). -/
theorem c5_process_pending_priority_order :
    (∀ (σ : Type)
        (allocFn : σ → String → List ResourceRequirement →
          AllocationResult × σ)
        (q : List PolEntry) (s : σ),
      List.Pairwise polKeyLe q →
      (processLoop allocFn q s).2.2.2
        = q.take ((processLoop allocFn q s).2.2.2).length ∧
      (processLoop allocFn q s).2.1 = q.drop (processLoop allocFn q s).1 ∧
      (((processLoop allocFn q s).2.2.2).length
          = (processLoop allocFn q s).1 ∨
        ((processLoop allocFn q s).2.2.2).length
          = (processLoop allocFn q s).1 + 1) ∧
      ((q.map PolEntry.neg_priority).Nodup →
        ((processLoop allocFn q s).2.2.2.map
          (fun e => -e.neg_priority)).Pairwise (fun x y => x > y))) ∧
    c5Run.1 = 1 ∧
    (processLoop c5AllocOnlyR5 c5PolQ.pending_allocations ()).2.2.2.map
      PolEntry.requester_id = ["r5", "r3"] ∧
    c5Run.2.1.pending_allocations
      = [⟨-3, "r3", []⟩, ⟨-1, "r1", []⟩] := by
  refine ⟨?_, by decide, by decide, by decide⟩
  intro σ allocFn q s hq
  obtain ⟨h1, h2, h3⟩ := processLoop_spec allocFn q s hq
  refine ⟨h1, h2, h3, ?_⟩
  intro hnod
  have hsubl : (processLoop allocFn q s).2.2.2.Sublist q := by
    rw [h1]; exact List.take_sublist _ _
  have hpw : (processLoop allocFn q s).2.2.2.Pairwise polKeyLe :=
    hq.sublist hsubl
  have hneq : (processLoop allocFn q s).2.2.2.Pairwise
      (fun a b => a.neg_priority ≠ b.neg_priority) := by
    have : ((processLoop allocFn q s).2.2.2.map
        PolEntry.neg_priority).Nodup := (hsubl.map _).nodup hnod
    rw [List.Nodup, List.pairwise_map] at this
    exact this
  rw [List.pairwise_map]
  refine (hpw.and hneq).imp ?_
  intro a b hab
  obtain ⟨hle, hne⟩ := hab
  rcases hle with h | ⟨h, _⟩
  · omega
  · exact absurd h hne

/-- C5: counterexample for the clause "leaves the priority-1 and
priority-3 requests queued in original relative order".  The requests
were submitted r1 before r3, but the queue is a priority heap: after the
pass the r3 entry precedes the r1 entry (priority order), so the original
relative order is not preserved. -/
theorem c5_counterexample :
    c5Run.2.1.pending_allocations.map PolEntry.requester_id = ["r3", "r1"] ∧
    (["r3", "r1"] : List String) ≠ ["r1", "r3"] := by
  exact ⟨by decide, by decide⟩

/-- C5: witness applying the general part at the concrete queue. -/
theorem c5_witness :
    List.Pairwise polKeyLe c5PolQ.pending_allocations ∧
    (c5PolQ.pending_allocations.map PolEntry.neg_priority).Nodup ∧
    (processLoop c5AllocOnlyR5 c5PolQ.pending_allocations ()).2.1
      = c5PolQ.pending_allocations.drop
          (processLoop c5AllocOnlyR5 c5PolQ.pending_allocations ()).1 ∧
    ((processLoop c5AllocOnlyR5 c5PolQ.pending_allocations ()).2.2.2.map
      (fun e => -e.neg_priority)).Pairwise (fun x y => x > y) := by
  have hq : List.Pairwise polKeyLe c5PolQ.pending_allocations := by decide
  have hnod : (c5PolQ.pending_allocations.map PolEntry.neg_priority).Nodup :=
    by decide
  obtain ⟨_, h2, _, h4⟩ :=
    (c5_process_pending_priority_order.1 Unit c5AllocOnlyR5
      c5PolQ.pending_allocations () hq)
  exact ⟨hq, hnod, h2, h4 hnod⟩
